import Mathlib

/-!
Shallow embedding of the coordinate-transform, zoom, rotation, search and
session-lifecycle logic of the QuantumPDF viewer (src/pdf.py), together with
theorems settling the frozen claims about it.

Python floats are modelled as rationals (ℚ): every numeric constant in the
relevant code (0.1, 15.0, 0.01, 1.25, 0.5, scale factors) is exactly
representable, and the claims are about exact algebraic relations
("within floating-point epsilon" becomes exact equality over ℚ).
-/

namespace QuantumPDF

/-- A `fitz.Rect`: four coordinates `x0 y0 x1 y1`. -/
structure Rect where
  x0 : ℚ
  y0 : ℚ
  x1 : ℚ
  y1 : ℚ
deriving DecidableEq, Repr

/-- Cosine of an angle in degrees, for the right angles that
`fitz.Matrix.prerotate` special-cases exactly (the only angles this program
ever passes: multiples of 90). `Int.emod 360` lands in `[0, 360)` exactly as
PyMuPDF's `while`-loop normalisation does. -/
def cosd (θ : Int) : ℚ :=
  if θ.emod 360 = 0 then 1
  else if θ.emod 360 = 90 then 0
  else if θ.emod 360 = 180 then -1
  else 0

/-- Sine of an angle in degrees, right-angle cases (see `cosd`). -/
def sind (θ : Int) : ℚ :=
  if θ.emod 360 = 0 then 0
  else if θ.emod 360 = 90 then 1
  else if θ.emod 360 = 180 then 0
  else -1

/-- Apply `fitz.Matrix(1,1).prerotate θ` to a point: the rotation matrix is
`[cos θ, sin θ, -sin θ, cos θ, 0, 0]` and fitz maps `(x,y)` to
`(a*x + c*y + e, b*x + d*y + f)`. -/
def rotatePoint (θ : Int) (p : ℚ × ℚ) : ℚ × ℚ :=
  (p.1 * cosd θ - p.2 * sind θ, p.1 * sind θ + p.2 * cosd θ)

/-- `fitz.Rect.transform` with a pure rotation matrix: transform the four
corners and take the enclosing (normalised) rectangle. -/
def Rect.transformRot (r : Rect) (θ : Int) : Rect :=
  let p1 := rotatePoint θ (r.x0, r.y0)
  let p2 := rotatePoint θ (r.x1, r.y0)
  let p3 := rotatePoint θ (r.x0, r.y1)
  let p4 := rotatePoint θ (r.x1, r.y1)
  { x0 := min (min p1.1 p2.1) (min p3.1 p4.1)
    y0 := min (min p1.2 p2.2) (min p3.2 p4.2)
    x1 := max (max p1.1 p2.1) (max p3.1 p4.1)
    y1 := max (max p1.2 p2.2) (max p3.2 p4.2) }

/-- `fitz.Rect.__mul__` with a scalar: multiply every coordinate. -/
def Rect.scaleBy (r : Rect) (s : ℚ) : Rect :=
  ⟨r.x0 * s, r.y0 * s, r.x1 * s, r.y1 * s⟩

/-- Document-space → view-space mapping used by `PDFViewer._update_highlights`
(src/pdf.py line 594): `highlight_rect = rect * self.current_render_scale`.
The source multiplies by the render scale only; it never consults
`self.rotation` in this function, so the rotation argument is unused. -/
def to_view (r : Rect) (render_scale : ℚ) (_rotation : Int) : Rect :=
  r.scaleBy render_scale

/-- View-space → document-space mapping used by `PDFViewer._on_text_selected`
(src/pdf.py lines 457-469): divide each coordinate by the render scale, then,
when the rotation is nonzero, transform by `fitz.Matrix(1,1).prerotate(-rotation)`. -/
def to_document (r : Rect) (render_scale : ℚ) (rotation : Int) : Rect :=
  let d : Rect := ⟨r.x0 / render_scale, r.y0 / render_scale,
                   r.x1 / render_scale, r.y1 / render_scale⟩
  if rotation ≠ 0 then d.transformRot (-rotation) else d

/-! ## Zoom (`PDFViewer.set_zoom_factor`, `zoom_in`, `zoom_out`, `_handle_wheel_zoom`) -/

/-- The clamp on line 440: `max(0.1, min(factor, 15.0))`. -/
def clampZoom (factor : ℚ) : ℚ :=
  max (1/10) (min factor 15)

/-- Observable outcome of one `set_zoom_factor` call: the zoom factor
afterwards, whether `zoom_changed` was emitted, and whether a (debounced)
re-render was requested. -/
structure ZoomOutcome where
  zoom : ℚ
  zoomChangedEmitted : Bool
  renderRequested : Bool
deriving DecidableEq, Repr

/-- `PDFViewer.set_zoom_factor` (src/pdf.py lines 439-445): clamp the request
to `[0.1, 15.0]`; only when the clamped value differs from the current factor
by more than `0.01` does the viewer store it, emit `zoom_changed`, and request
a re-render; otherwise nothing happens. -/
def set_zoom_factor (current_zoom_factor factor : ℚ) : ZoomOutcome :=
  let new_factor := clampZoom factor
  if |new_factor - current_zoom_factor| > 1/100 then
    ⟨new_factor, true, true⟩
  else
    ⟨current_zoom_factor, false, false⟩

/-- `PDFViewer.zoom_in` (line 494): `set_zoom_factor(current * 1.25)`. -/
def zoom_in (current_zoom_factor : ℚ) : ZoomOutcome :=
  set_zoom_factor current_zoom_factor (current_zoom_factor * (5/4))

/-- `PDFViewer.zoom_out` (line 497): `set_zoom_factor(current / 1.25)`. -/
def zoom_out (current_zoom_factor : ℚ) : ZoomOutcome :=
  set_zoom_factor current_zoom_factor (current_zoom_factor / (5/4))

/-- `PDFViewer._handle_wheel_zoom` (line 491): `set_zoom_factor(current * factor)`. -/
def handle_wheel_zoom (current_zoom_factor factor : ℚ) : ZoomOutcome :=
  set_zoom_factor current_zoom_factor (current_zoom_factor * factor)

/-! ## Rotation (`PDFViewer.rotate`) -/

/-- `PDFViewer.rotate` (src/pdf.py line 448): `(rotation + angle) % 360`.
Python `%` with a positive modulus returns a value in `[0, 360)`, exactly
`Int.emod`. -/
def rotate (rotation angle : Int) : Int :=
  (rotation + angle).emod 360

/-! ## Session close (`PDFViewer.close`) -/

/-- The externally visible steps of `PDFViewer.close`:
interrupt-and-wait on the thumbnail loader thread, interrupt-and-wait on the
page render thread, and closing the document handle. -/
inductive CloseEvent where
  | joinThumbnail
  | joinRender
  | closeDoc
deriving DecidableEq, Repr

/-- Position of a close step in the order mandated by the amended claim:
thumbnail join, then render join, then document release. -/
def CloseEvent.phase : CloseEvent → Nat
  | joinThumbnail => 0
  | joinRender => 1
  | closeDoc => 2

/-- The part of a `PDFViewer`'s state that `close` consults: whether the
thumbnail loader thread is running, whether the page render thread is
running, and whether the document handle is open. -/
structure ViewerThreads where
  thumbnailRunning : Bool
  renderRunning : Bool
  docOpen : Bool
deriving DecidableEq, Repr

/-- `PDFViewer.close` (src/pdf.py lines 605-615) as the sequence of steps it
performs: first `requestInterruption`+`wait` on the thumbnail loader if it is
running, then `requestInterruption`+`wait` on the render thread if it is
running, then `doc.close()` if the document is open. -/
def close_trace (s : ViewerThreads) : List CloseEvent :=
  (if s.thumbnailRunning then [CloseEvent.joinThumbnail] else []) ++
  (if s.renderRunning then [CloseEvent.joinRender] else []) ++
  (if s.docOpen then [CloseEvent.closeDoc] else [])

/-! ## Tabs (`MainWindow._add_new_tab`) -/

/-- The tab bar: the `file_path` of each open viewer in tab order, plus the
current tab index. -/
structure TabState where
  tabs : List String
  currentIndex : Nat
deriving DecidableEq, Repr

/-- `MainWindow._add_new_tab` (src/pdf.py lines 1098-1125): scan the existing
tabs in order and compare each viewer's `file_path` to the requested path
with plain string equality; on the first hit, switch to that tab and return.
Otherwise construct a viewer; `openOk` stands for whether `fitz.open`
succeeded (`viewer.doc` non-null) — on failure the viewer is discarded and no
tab is added; on success the tab is appended and becomes current. -/
def add_new_tab (s : TabState) (file_path : String) (openOk : Bool) : TabState :=
  match s.tabs.findIdx? (fun p => p = file_path) with
  | some i => { s with currentIndex := i }
  | none =>
    if openOk then
      { tabs := s.tabs ++ [file_path], currentIndex := s.tabs.length }
    else s

/-- Modelled from the spec: the spec keys tab de-duplication on the
"normalized file path" (§4.5, §3 Tab), but the source never normalizes paths
— no `os.path.normpath`/`abspath`/`realpath` appears anywhere. The spec's
notion is modelled minimally: collapsing a leading `./` segment, which any
filesystem path normalization performs. -/
def normalizePath (p : String) : String :=
  match p.data with
  | '.' :: '/' :: rest => String.mk rest
  | _ => p

/-! ## Text selection (`PDFViewer._on_text_selected`) -/

/-- Python float division, which raises `ZeroDivisionError` on a zero
denominator; the error is the `none` branch. -/
def safeDiv (a b : ℚ) : Option ℚ :=
  if b = 0 then none else some (a / b)

/-- `PDFViewer._on_text_selected` (src/pdf.py lines 453-477): bail out when no
document is open; build the document-space rect by dividing the selection's
four coordinates by `current_render_scale` — a `ZeroDivisionError` there is
caught and the handler returns with no further action; apply the inverse
rotation when `rotation != 0`; extract text (`extract_text` stands for the
engine's `page.get_text` on the clipped region); copy to the clipboard and
notify only if the text is non-empty. The returned value is the text placed
on the clipboard: `none` means the handler performed no state change at all
(its only side effects are the clipboard write and the notification). -/
def on_text_selected (docOpen : Bool) (current_render_scale : ℚ) (rotation : Int)
    (extract_text : Rect → String) (scene_rect : Rect) : Option String :=
  if docOpen = false then none
  else
    match safeDiv scene_rect.x0 current_render_scale,
          safeDiv scene_rect.y0 current_render_scale,
          safeDiv scene_rect.x1 current_render_scale,
          safeDiv scene_rect.y1 current_render_scale with
    | some a, some b, some c, some d =>
      let pdf_rect : Rect := ⟨a, b, c, d⟩
      let pdf_rect := if rotation ≠ 0 then pdf_rect.transformRot (-rotation) else pdf_rect
      let selected_text := extract_text pdf_rect
      if selected_text ≠ "" then some selected_text else none
    | _, _, _, _ => none

/-! ## Search (`PDFViewer.search_text`, `go_to_result`, result navigation) -/

/-- `PDFViewer.search_text` (src/pdf.py lines 546-566). `page_count` is the
document's page count and `search_for i` the engine's ordered match
rectangles for page `i` (`page.search_for(text)`). The previous match list
and cursor are discarded unconditionally (lines 547-548), so the result is a
function of the query and the document alone: returns the new match list and
the new cursor (`0` if there are matches, `-1` otherwise). The loop appends
`(i, rect)` for `i = 0 .. page_count-1` in order, engine order within a page. -/
def search_text (page_count : Nat) (search_for : Nat → List Rect) (text : String) :
    List (Nat × Rect) × Int :=
  if text = "" then ([], -1)
  else
    let results := (List.range page_count).foldl
      (fun acc i => acc ++ (search_for i).map (fun rect => (i, rect))) []
    (results, if results.isEmpty then -1 else 0)

/-- The state `go_to_result` and the next/previous navigation touch: the
match list, the cursor (`current_search_index`, `-1` when empty), and the
displayed page index. -/
structure SearchNav where
  search_results : List (Nat × Rect)
  current_search_index : Int
  current_page_index : Nat
deriving DecidableEq, Repr

/-- `PDFViewer.go_to_result` (src/pdf.py lines 568-580): bounds-check the
index; store it as the cursor; then display the match's page when it differs
from the current page (modelled as updating `current_page_index`; the render
and highlight refresh it triggers carry no further state relevant here). -/
def go_to_result (s : SearchNav) (index : Int) : SearchNav :=
  if 0 ≤ index ∧ index < s.search_results.length then
    let s1 := { s with current_search_index := index }
    match s.search_results[index.toNat]? with
    | some (page_num, _) =>
      if page_num ≠ s.current_page_index then
        { s1 with current_page_index := page_num }
      else s1
    | none => s1
  else s

/-- `MainWindow._go_to_next_result` (src/pdf.py lines 1351-1355): when the
match list is non-empty, go to `(cursor + 1) % len`. -/
def go_to_next_result (s : SearchNav) : SearchNav :=
  if s.search_results ≠ [] then
    go_to_result s ((s.current_search_index + 1).emod s.search_results.length)
  else s

/-- `MainWindow._go_to_prev_result` (src/pdf.py lines 1357-1361): when the
match list is non-empty, go to `(cursor - 1 + len) % len`. -/
def go_to_prev_result (s : SearchNav) : SearchNav :=
  if s.search_results ≠ [] then
    go_to_result s ((s.current_search_index - 1 + s.search_results.length).emod
      s.search_results.length)
  else s

/-! ## Page display (`PDFViewer.display_page`, `fit_to_page`,
`_recalculate_base_scale_and_render`) -/

/-- Externally visible notifications/requests of the page-display path. -/
inductive ViewEvent where
  | pageChanged
  | zoomChanged (z : ℚ)
  | renderImmediate
  | renderDebounced
deriving DecidableEq, Repr

/-- The `PDFViewer` fields the page-display path reads and writes. -/
structure ViewerState where
  docOpen : Bool
  pageCount : Nat
  current_page_index : Nat
  current_zoom_factor : ℚ
  base_scale : ℚ
  rotation : Int
deriving DecidableEq, Repr

/-- Environment of a display/fit call: whether the view has a viewport, the
viewport size, and the current page's `page.rect` width and height. -/
structure PageGeom where
  hasViewport : Bool
  viewW : ℚ
  viewH : ℚ
  pageW : ℚ
  pageH : ℚ
deriving DecidableEq, Repr

/-- Width and height of `page.rect.transform(Matrix(1,1).prerotate(rotation))`
(src/pdf.py line 505): a right-angle rotation swaps the bounding-box
dimensions when the angle is 90 or 270 and keeps them otherwise. -/
def rotatedDims (g : PageGeom) (rotation : Int) : ℚ × ℚ :=
  if rotation.emod 180 = 0 then (g.pageW, g.pageH) else (g.pageH, g.pageW)

/-- `PDFViewer._recalculate_base_scale_and_render` (src/pdf.py lines 500-514):
guarded on an open document and viewport, a non-empty `page.rect`
(`is_empty` is a non-positive width or height), and nonzero rotated
dimensions; then `base_scale := min(viewW/pageW', viewH/pageH')` and a
debounced render is requested. -/
def recalculate_base_scale_and_render (s : ViewerState) (g : PageGeom) :
    ViewerState × List ViewEvent :=
  if s.docOpen = false ∨ g.hasViewport = false then (s, [])
  else if g.pageW ≤ 0 ∨ g.pageH ≤ 0 then (s, [])
  else
    let dims := rotatedDims g s.rotation
    if dims.1 = 0 ∨ dims.2 = 0 then (s, [])
    else
      let scale_x := g.viewW / dims.1
      let scale_y := g.viewH / dims.2
      ({ s with base_scale := min scale_x scale_y }, [ViewEvent.renderDebounced])

/-- `PDFViewer.fit_to_page` (src/pdf.py lines 516-520): set the zoom factor
to exactly `1.0`, emit `zoom_changed`, then recompute the base scale and
request a render. -/
def fit_to_page (s : ViewerState) (g : PageGeom) : ViewerState × List ViewEvent :=
  let s1 := { s with current_zoom_factor := 1 }
  let r := recalculate_base_scale_and_render s1 g
  (r.1, ViewEvent.zoomChanged 1 :: r.2)

/-- `PDFViewer.display_page` (src/pdf.py lines 392-401): no-op without a
document or on an out-of-range page number; on a genuine page change, store
the index, render immediately, and emit `page_changed` (in that order);
on the currently displayed page, `fit_to_page` instead. -/
def display_page (s : ViewerState) (g : PageGeom) (page_num : Int) :
    ViewerState × List ViewEvent :=
  if s.docOpen = false ∨ ¬(0 ≤ page_num ∧ page_num < s.pageCount) then (s, [])
  else if (s.current_page_index : Int) ≠ page_num then
    ({ s with current_page_index := page_num.toNat },
     [ViewEvent.renderImmediate, ViewEvent.pageChanged])
  else fit_to_page s g

/-! ## Theorems -/

/-- C1: the spec claims the highlight-placement transform
(`_update_highlights`, document→view) and the text-selection transform
(`_on_text_selected`, view→document) are exact algebraic inverses for every
rotation in `{0, 90, 180, 270}` and every positive render scale. The code
violates this: `_update_highlights` multiplies by the render scale but never
applies the rotation, while `_on_text_selected` does apply the inverse
rotation — and the render thread does rasterize with
`Matrix(scale, scale).prerotate(rotation)`, so view space genuinely is the
rotated-then-scaled page. At rect `(1,2,3,4)`, `render_scale = 2`,
`rotation = 90`, the round trip returns the rect rotated by `-90°`,
`(2,-3,4,-1)`, not the original rect: highlights are misplaced whenever the
document is rotated. -/
theorem C1_roundtrip_violated_at_rotation_90 :
    to_document (to_view ⟨1, 2, 3, 4⟩ 2 90) 2 90 = ⟨2, -3, 4, -1⟩ ∧
    to_document (to_view ⟨1, 2, 3, 4⟩ 2 90) 2 90 ≠ ⟨1, 2, 3, 4⟩ := by
  constructor
  · norm_num [to_document, to_view, Rect.scaleBy, Rect.transformRot, rotatePoint,
      cosd, sind, Rect.mk.injEq]
  · norm_num [to_document, to_view, Rect.scaleBy, Rect.transformRot, rotatePoint,
      cosd, sind, Rect.mk.injEq]

/-- C3 counterexample: when the thumbnail loader and the render thread are
both running and the document is open, `PDFViewer.close` joins the thumbnail
loader FIRST and the render thread second — not render first, thumbnail
second as the claim states. -/
theorem C3_counterexample_close_order :
    close_trace ⟨true, true, true⟩ =
      [CloseEvent.joinThumbnail, CloseEvent.joinRender, CloseEvent.closeDoc] ∧
    close_trace ⟨true, true, true⟩ ≠
      [CloseEvent.joinRender, CloseEvent.joinThumbnail, CloseEvent.closeDoc] := by
  decide

/-- C3 amended: closing a session cancels and joins the thumbnail stream
first and the in-flight render job second — in that order, both fully
stopped — before the document handle is released; in every state the close
sequence is strictly ordered thumbnail-join, render-join, document-release,
so no worker can still be running when the document handle is closed. -/
theorem C3_close_joins_both_threads_before_doc_close (s : ViewerThreads) :
    (close_trace s).Pairwise (fun a b => a.phase < b.phase) := by
  rcases s with ⟨t, r, d⟩
  cases t <;> cases r <;> cases d <;> decide

/-- Single rotation step stays inside the four right angles (shared helper
for the rotation claims). -/
theorem rotate_step_mem (r a : Int)
    (hr : r = 0 ∨ r = 90 ∨ r = 180 ∨ r = 270) (ha : a = 90 ∨ a = -90) :
    rotate r a = 0 ∨ rotate r a = 90 ∨ rotate r a = 180 ∨ rotate r a = 270 := by
  rcases hr with h | h | h | h <;> rcases ha with h2 | h2 <;>
    subst h <;> subst h2 <;> decide

/-- Any sequence of ±90 steps keeps the rotation inside the four right
angles (shared helper). -/
theorem rotate_foldl_mem :
    ∀ (steps : List Int) (r : Int),
      (r = 0 ∨ r = 90 ∨ r = 180 ∨ r = 270) →
      (∀ a ∈ steps, a = 90 ∨ a = -90) →
      (steps.foldl rotate r = 0 ∨ steps.foldl rotate r = 90 ∨
        steps.foldl rotate r = 180 ∨ steps.foldl rotate r = 270) := by
  intro steps
  induction steps with
  | nil => intro r hr _; simpa using hr
  | cons a t ih =>
    intro r hr hsteps
    have ha : a = 90 ∨ a = -90 := hsteps a (by simp)
    have hmem := rotate_step_mem r a hr ha
    simpa using ih (rotate r a) hmem (fun b hb => hsteps b (by simp [hb]))

/-- C6: from any starting rotation in `{0, 90, 180, 270}`, four `rotate(+90)`
calls return the stored rotation to its original value exactly, and after
any finite sequence of `rotate(+90)`/`rotate(-90)` calls the stored rotation
is still one of `{0, 90, 180, 270}` — `(rotation + angle) % 360` normalizes
every step, so there is no accumulation drift. -/
theorem C6_rotation_cyclic_group (r : Int) (steps : List Int)
    (hr : r = 0 ∨ r = 90 ∨ r = 180 ∨ r = 270)
    (hsteps : ∀ a ∈ steps, a = 90 ∨ a = -90) :
    rotate (rotate (rotate (rotate r 90) 90) 90) 90 = r ∧
    (steps.foldl rotate r = 0 ∨ steps.foldl rotate r = 90 ∨
      steps.foldl rotate r = 180 ∨ steps.foldl rotate r = 270) := by
  constructor
  · rcases hr with h | h | h | h <;> subst h <;> decide
  · exact rotate_foldl_mem steps r hr hsteps

/-- C6 witness: starting at rotation 90, four +90 steps come back to 90, and
the step sequence `+90, -90, +90, +90` lands on a right angle (270). -/
theorem C6_witness :
    ((90 : Int) = 0 ∨ (90 : Int) = 90 ∨ (90 : Int) = 180 ∨ (90 : Int) = 270) ∧
    (∀ a ∈ ([90, -90, 90, 90] : List Int), a = 90 ∨ a = -90) ∧
    rotate (rotate (rotate (rotate 90 90) 90) 90) 90 = 90 ∧
    (([90, -90, 90, 90] : List Int).foldl rotate 90 = 0 ∨
      ([90, -90, 90, 90] : List Int).foldl rotate 90 = 90 ∨
      ([90, -90, 90, 90] : List Int).foldl rotate 90 = 180 ∨
      ([90, -90, 90, 90] : List Int).foldl rotate 90 = 270) :=
  ⟨by decide, by decide,
    (C6_rotation_cyclic_group 90 [90, -90, 90, 90] (by decide) (by decide)).1,
    (C6_rotation_cyclic_group 90 [90, -90, 90, 90] (by decide) (by decide)).2⟩

/-- C2 counterexample: with current zoom `1` and requested multiplier
`201/200` (= 1.005), `clamp(z·f) = 1.005` differs from the mathematical clamp
claim: `set_zoom_factor` leaves the zoom at `1` because the change is within
the `0.01` dead-band, so the post-request zoom is NOT `clamp(z·f)`. -/
theorem C2_counterexample_deadband :
    (set_zoom_factor 1 (1 * (201/200))).zoom ≠ clampZoom (1 * (201/200)) := by
  have hc : clampZoom (1 * (201/200)) = 201/200 := by
    norm_num [clampZoom]
  have hcond : ¬(|clampZoom (1 * (201/200)) - 1| > 1/100) := by
    rw [hc, abs_of_nonneg (by norm_num)]
    norm_num
  rw [set_zoom_factor]
  simp only [hcond, if_false]
  rw [hc]
  norm_num

/-- C2 amended: for every current zoom `z ∈ [0.1, 15]` and requested
multiplier `f`, the post-request zoom is `clamp(z·f, 0.1, 15.0)` whenever
that clamped value differs from `z` by more than `0.01`, and is the old `z`
unchanged otherwise (the dead-band of line 441); in either case the zoom
stays within `[0.1, 15.0]`. (`zoom_in`, `zoom_out` and the wheel zoom all
route through `set_zoom_factor` with `f = 1.25`, `1/1.25`, and the wheel
step respectively.) -/
theorem C2_zoom_clamped_with_deadband (z f : ℚ) (hlo : 1/10 ≤ z) (hhi : z ≤ 15) :
    ((set_zoom_factor z (z * f)).zoom =
      if |clampZoom (z * f) - z| > 1/100 then clampZoom (z * f) else z) ∧
    1/10 ≤ (set_zoom_factor z (z * f)).zoom ∧
    (set_zoom_factor z (z * f)).zoom ≤ 15 := by
  have hclo : 1/10 ≤ clampZoom (z * f) := le_max_left _ _
  have hchi : clampZoom (z * f) ≤ 15 :=
    max_le (by norm_num) (min_le_right _ _)
  rw [set_zoom_factor]
  by_cases h : |clampZoom (z * f) - z| > 1/100
  · simp only [h, if_true]
    exact ⟨trivial, hclo, hchi⟩
  · simp only [h, if_false]
    exact ⟨trivial, hlo, hhi⟩

/-- C2 witness: at `z = 1`, `f = 2` the hypotheses hold and the post-request
zoom is as the amended claim computes (the clamp differs from 1 by more than
0.01, so it is taken). -/
theorem C2_witness :
    ((1 : ℚ)/10 ≤ 1 ∧ (1 : ℚ) ≤ 15) ∧
    ((set_zoom_factor 1 (1 * 2)).zoom =
      if |clampZoom (1 * 2) - 1| > 1/100 then clampZoom (1 * 2) else 1) ∧
    1/10 ≤ (set_zoom_factor 1 (1 * 2)).zoom ∧
    (set_zoom_factor 1 (1 * 2)).zoom ≤ 15 :=
  ⟨by norm_num, C2_zoom_clamped_with_deadband 1 2 (by norm_num) (by norm_num)⟩

/-- C9: the dead-band of `set_zoom_factor` (line 441). If every requested
factor in a burst clamps to within `0.01` of the current zoom `z`, then each
individual request leaves the state entirely unchanged — old zoom kept, no
`zoom_changed` emitted, no re-render requested — and consequently the whole
burst, applied sequentially, leaves the zoom at `z`. -/
theorem C9_zoom_deadband_no_op (z : ℚ) (fs : List ℚ)
    (h : ∀ f ∈ fs, |clampZoom f - z| ≤ 1/100) :
    (∀ f ∈ fs, set_zoom_factor z f = ⟨z, false, false⟩) ∧
    fs.foldl (fun c f => (set_zoom_factor c f).zoom) z = z := by
  have hstep : ∀ f ∈ fs, set_zoom_factor z f = ⟨z, false, false⟩ := by
    intro f hf
    rw [set_zoom_factor]
    simp only [not_lt.mpr (h f hf), if_false]
  refine ⟨hstep, ?_⟩
  induction fs with
  | nil => rfl
  | cons f t ih =>
    have hz : (set_zoom_factor z f).zoom = z := by
      rw [hstep f (by simp)]
    calc (f :: t).foldl (fun c f => (set_zoom_factor c f).zoom) z
        = t.foldl (fun c f => (set_zoom_factor c f).zoom) ((set_zoom_factor z f).zoom) := rfl
      _ = z := by
          rw [hz]
          exact ih (fun g hg => h g (by simp [hg])) (fun g hg => hstep g (by simp [hg]))

/-- C9 witness: at `z = 1` with requests clamping to `1.005`, `1`, and
`0.995` — each within `0.01` of the current zoom — every request is a
complete no-op and the burst leaves the zoom at `1`. -/
theorem C9_witness :
    (∀ f ∈ ([201/200, 1, 199/200] : List ℚ), |clampZoom f - 1| ≤ 1/100) ∧
    (∀ f ∈ ([201/200, 1, 199/200] : List ℚ),
      set_zoom_factor 1 f = ⟨1, false, false⟩) ∧
    ([201/200, 1, 199/200] : List ℚ).foldl
      (fun c f => (set_zoom_factor c f).zoom) 1 = 1 := by
  have h : ∀ f ∈ ([201/200, 1, 199/200] : List ℚ), |clampZoom f - 1| ≤ 1/100 := by
    intro f hf
    rcases List.mem_cons.mp hf with h1 | hf
    · subst h1
      have : clampZoom (201/200) = 201/200 := by norm_num [clampZoom]
      rw [this, abs_of_nonneg (by norm_num)]
      norm_num
    rcases List.mem_cons.mp hf with h1 | hf
    · subst h1
      have : clampZoom 1 = 1 := by norm_num [clampZoom]
      rw [this]
      norm_num
    rcases List.mem_cons.mp hf with h1 | hf
    · subst h1
      have : clampZoom (199/200) = 199/200 := by norm_num [clampZoom]
      rw [this, abs_of_nonpos (by norm_num)]
      norm_num
    · simp at hf
  exact ⟨h, (C9_zoom_deadband_no_op 1 [201/200, 1, 199/200] h).1,
    (C9_zoom_deadband_no_op 1 [201/200, 1, 199/200] h).2⟩

/-- C5: when `current_render_scale` is zero, converting the view-space
selection rectangle raises `ZeroDivisionError` inside the `try` block of
`_on_text_selected`; the handler catches it and returns: no text is
extracted, nothing is copied to the clipboard, no notification is emitted,
and the session state is unchanged (the handler's only side effects are the
clipboard write and the notification, both skipped), regardless of the
rotation, the selection rectangle, or what the engine would have extracted. -/
theorem C5_zero_scale_guard (docOpen : Bool) (rotation : Int)
    (extract_text : Rect → String) (scene_rect : Rect) :
    on_text_selected docOpen 0 rotation extract_text scene_rect = none := by
  rw [on_text_selected]
  cases docOpen <;> simp [safeDiv]

/-- C4 counterexample: `"./a.pdf"` and `"a.pdf"` normalize to the same file
path but are different strings; `_add_new_tab` compares raw `file_path`
strings only, so adding the second spelling while the first is open creates
a second tab for the same document instead of switching to the existing one. -/
theorem C4_counterexample_two_tabs_same_file :
    normalizePath "./a.pdf" = normalizePath "a.pdf" ∧
    "./a.pdf" ≠ "a.pdf" ∧
    (add_new_tab (add_new_tab ⟨[], 0⟩ "a.pdf" true) "./a.pdf" true).tabs =
      ["a.pdf", "./a.pdf"] := by
  refine ⟨?_, by decide, ?_⟩
  · rfl
  · rfl

/-- C4 amended: de-duplication is keyed on the exact, unnormalized path
string: if no two existing tabs share a path string, none do after any
`_add_new_tab` call, and adding a path string that is already open never
opens anything — the tab list is unchanged and the call only switches to the
first tab carrying that exact string. Paths that are different strings for
the same file are NOT deduplicated (see the counterexample). -/
theorem C4_exact_path_dedup (s : TabState) (file_path : String) (openOk : Bool)
    (hnodup : s.tabs.Nodup) :
    (add_new_tab s file_path openOk).tabs.Nodup ∧
    (file_path ∈ s.tabs →
      (add_new_tab s file_path openOk).tabs = s.tabs ∧
      (add_new_tab s file_path openOk).currentIndex =
        s.tabs.findIdx (fun p => p = file_path)) := by
  rw [add_new_tab]
  cases hfind : s.tabs.findIdx? (fun p => p = file_path) with
  | none =>
    have hnotmem : file_path ∉ s.tabs := by
      intro hmem
      have := (List.findIdx?_eq_none_iff.mp hfind) file_path hmem
      simp at this
    constructor
    · cases openOk with
      | false => simpa using hnodup
      | true =>
        simp only [if_true]
        exact hnodup.append (List.nodup_singleton _)
          (fun a ha hb => by
            simp only [List.mem_singleton] at hb
            exact hnotmem (hb ▸ ha))
    · intro hmem
      exact absurd hmem hnotmem
  | some i =>
    refine ⟨hnodup, fun _ => ⟨rfl, ?_⟩⟩
    exact ((List.findIdx?_eq_some_iff_findIdx_eq.mp hfind).2).symm

/-- C4 witness: with tabs `["a.pdf", "b.pdf"]` (no duplicates), adding
`"b.pdf"` again keeps the tab list unchanged and switches to index 1. -/
theorem C4_witness :
    (["a.pdf", "b.pdf"] : List String).Nodup ∧
    ("b.pdf" ∈ (["a.pdf", "b.pdf"] : List String)) ∧
    (add_new_tab ⟨["a.pdf", "b.pdf"], 0⟩ "b.pdf" true).tabs.Nodup ∧
    (add_new_tab ⟨["a.pdf", "b.pdf"], 0⟩ "b.pdf" true).tabs = ["a.pdf", "b.pdf"] ∧
    (add_new_tab ⟨["a.pdf", "b.pdf"], 0⟩ "b.pdf" true).currentIndex =
      (["a.pdf", "b.pdf"] : List String).findIdx (fun p => p = "b.pdf") := by
  have h := C4_exact_path_dedup ⟨["a.pdf", "b.pdf"], 0⟩ "b.pdf" true (by decide)
  have hm : "b.pdf" ∈ (["a.pdf", "b.pdf"] : List String) := by decide
  exact ⟨by decide, hm, h.1, (h.2 hm).1, (h.2 hm).2⟩

/-- Folding append over a list equals `flatMap` (shared helper). -/
theorem foldl_append_eq_flatMap {α β : Type} (f : α → List β) :
    ∀ (l : List α) (acc : List β),
      l.foldl (fun acc i => acc ++ f i) acc = acc ++ l.flatMap f := by
  intro l
  induction l with
  | nil => intro acc; simp
  | cons a t ih => intro acc; simp [ih, List.append_assoc]

/-- Every element of the page scan carries a page index below the page count
(shared helper). -/
theorem scan_fst_lt (g : Nat → List Rect) (n : Nat) :
    ∀ x ∈ (List.range n).flatMap (fun i => (g i).map (fun rect => (i, rect))),
      x.1 < n := by
  intro x hx
  simp only [List.mem_flatMap, List.mem_range, List.mem_map] at hx
  obtain ⟨i, hi, rect, _, rfl⟩ := hx
  simpa using hi

/-- A universally true relation is pairwise on any list (shared helper). -/
theorem pairwise_of_total {α : Type} {R : α → α → Prop} (hR : ∀ a b, R a b) :
    ∀ (l : List α), l.Pairwise R := by
  intro l
  induction l with
  | nil => exact List.Pairwise.nil
  | cons a t ih => exact List.Pairwise.cons (fun b _ => hR a b) ih

/-- The page scan is ordered by page index (shared helper). -/
theorem scan_pairwise (g : Nat → List Rect) :
    ∀ n : Nat,
      ((List.range n).flatMap
        (fun i => (g i).map (fun rect => (i, rect)))).Pairwise
          (fun a b => a.1 ≤ b.1) := by
  intro n
  induction n with
  | zero => simp
  | succ m ih =>
    rw [List.range_succ, List.flatMap_append, List.pairwise_append]
    refine ⟨ih, ?_, ?_⟩
    · simp only [List.flatMap_cons, List.flatMap_nil, List.append_nil]
      rw [List.pairwise_map]
      exact pairwise_of_total (fun a b => le_refl m) _
    · intro a ha b hb
      simp only [List.flatMap_cons, List.flatMap_nil, List.append_nil,
        List.mem_map] at hb
      obtain ⟨rect, _, rfl⟩ := hb
      exact le_of_lt (scan_fst_lt g m a ha)

/-- Filtering the page scan to one page recovers exactly that page's engine
matches, in engine order (shared helper). -/
theorem scan_filter (g : Nat → List Rect) :
    ∀ n : Nat, ∀ i : Nat, i < n →
      ((List.range n).flatMap
        (fun j => (g j).map (fun rect => (j, rect)))).filter
          (fun x => x.1 == i) = (g i).map (fun rect => (i, rect)) := by
  intro n
  induction n with
  | zero => intro i hi; omega
  | succ m ih =>
    intro i hi
    rw [List.range_succ, List.flatMap_append, List.filter_append]
    simp only [List.flatMap_cons, List.flatMap_nil, List.append_nil]
    by_cases hcase : i = m
    · subst hcase
      have h1 : ((List.range i).flatMap
          (fun j => (g j).map (fun rect => (j, rect)))).filter
            (fun x => x.1 == i) = [] := by
        refine List.filter_eq_nil_iff.mpr (fun a ha => ?_)
        have := scan_fst_lt g i a ha
        simp only [beq_iff_eq]
        omega
      have h2 : ((g i).map (fun rect => (i, rect))).filter
          (fun x => x.1 == i) = (g i).map (fun rect => (i, rect)) := by
        refine List.filter_eq_self.mpr (fun a ha => ?_)
        simp only [List.mem_map] at ha
        obtain ⟨rect, _, rfl⟩ := ha
        simp
      rw [h1, h2, List.nil_append]
    · have h2 : ((g m).map (fun rect => (m, rect))).filter
          (fun x => x.1 == i) = [] := by
        refine List.filter_eq_nil_iff.mpr (fun a ha => ?_)
        simp only [List.mem_map] at ha
        obtain ⟨rect, _, rfl⟩ := ha
        simp only [beq_iff_eq]
        omega
      rw [ih i (by omega), h2, List.append_nil]

/-- C7: for every non-empty query, `search_text` scans pages `0`,
`1`, ..., `page_count - 1` in index order and appends that page's engine
matches in engine order, so the produced match list (i) is exactly the
in-order concatenation of the per-page match lists tagged with their page
index, (ii) is ordered by page index ascending, and (iii) restricted to any
page equals that page's engine result list in engine order. The previous
match list and cursor are discarded before the scan (lines 547-548), so the
result replaces them wholesale whatever they were. -/
theorem C7_search_scan_order (page_count : Nat) (search_for : Nat → List Rect)
    (text : String) (htext : text ≠ "") :
    (search_text page_count search_for text).1 =
      (List.range page_count).flatMap
        (fun i => (search_for i).map (fun rect => (i, rect))) ∧
    (search_text page_count search_for text).1.Pairwise
      (fun a b => a.1 ≤ b.1) ∧
    ∀ i : Nat, i < page_count →
      (search_text page_count search_for text).1.filter (fun x => x.1 == i) =
        (search_for i).map (fun rect => (i, rect)) := by
  have hres : (search_text page_count search_for text).1 =
      (List.range page_count).flatMap
        (fun i => (search_for i).map (fun rect => (i, rect))) := by
    rw [search_text]
    simp only [if_neg htext]
    exact (foldl_append_eq_flatMap _ _ []).trans (List.nil_append _)
  refine ⟨hres, ?_, ?_⟩
  · rw [hres]; exact scan_pairwise search_for page_count
  · intro i hi
    rw [hres]
    exact scan_filter search_for page_count i hi

/-- C7 witness: a 3-page document where the query `"test"` matches once on
page 0 (rect `r0`) and once on page 2 (rect `r2`) yields exactly the match
list `[(0, r0), (2, r2)]`, which satisfies all three parts of the claim. -/
theorem C7_witness :
    ("test" : String) ≠ "" ∧
    (search_text 3
        (fun i => if i = 0 then [⟨0, 0, 1, 1⟩] else
          if i = 2 then [⟨5, 5, 6, 6⟩] else []) "test").1 =
      [(0, (⟨0, 0, 1, 1⟩ : Rect)), (2, (⟨5, 5, 6, 6⟩ : Rect))] ∧
    (search_text 3
        (fun i => if i = 0 then [⟨0, 0, 1, 1⟩] else
          if i = 2 then [⟨5, 5, 6, 6⟩] else []) "test").1.Pairwise
      (fun a b => a.1 ≤ b.1) := by
  refine ⟨?_, rfl, ?_⟩
  · intro h
    simp at h
  · exact (C7_search_scan_order 3
      (fun i => if i = 0 then [⟨0, 0, 1, 1⟩] else
        if i = 2 then [⟨5, 5, 6, 6⟩] else []) "test" (by intro h; simp at h)).2.1

/-- `go_to_result` with an in-bounds index always stores that index as the
cursor, whatever the page logic does (shared helper). -/
theorem go_to_result_cursor (s : SearchNav) (index : Int)
    (h0 : 0 ≤ index) (h1 : index < s.search_results.length) :
    (go_to_result s index).current_search_index = index := by
  rw [go_to_result, if_pos ⟨h0, h1⟩]
  cases hg : s.search_results[index.toNat]? with
  | none => rfl
  | some pr =>
    obtain ⟨page_num, rect⟩ := pr
    dsimp only
    split <;> rfl

/-- C8: on an empty match list both `next` and `previous` are complete
no-ops; on a match list of length `n` with the cursor at `i`, `0 ≤ i < n`,
`next` moves the cursor to `(i + 1) % n` and `previous` moves it to
`(i - 1 + n) % n` — cyclic wrap in both directions. -/
theorem C8_cyclic_result_navigation (s : SearchNav) :
    (s.search_results = [] →
      go_to_next_result s = s ∧ go_to_prev_result s = s) ∧
    (∀ i : Int, 0 ≤ i → i < s.search_results.length →
      s.current_search_index = i →
      (go_to_next_result s).current_search_index =
        (i + 1).emod s.search_results.length ∧
      (go_to_prev_result s).current_search_index =
        (i - 1 + s.search_results.length).emod s.search_results.length) := by
  constructor
  · intro h
    constructor <;> simp [go_to_next_result, go_to_prev_result, h]
  · intro i h0 h1 hcur
    have hne : s.search_results ≠ [] := by
      intro h
      rw [h] at h1
      simp at h1
      omega
    have hlen : (0 : Int) < s.search_results.length := by omega
    have hlen0 : (s.search_results.length : Int) ≠ 0 := by omega
    constructor
    · rw [go_to_next_result, if_pos hne, hcur]
      exact go_to_result_cursor s _ (Int.emod_nonneg _ hlen0)
        (Int.emod_lt_of_pos _ hlen)
    · rw [go_to_prev_result, if_pos hne, hcur]
      exact go_to_result_cursor s _ (Int.emod_nonneg _ hlen0)
        (Int.emod_lt_of_pos _ hlen)

/-- C8 witness: with the two-element match list `[(0, r0), (2, r2)]` and the
cursor at 1, `next` wraps the cursor to 0. -/
theorem C8_witness :
    ((⟨[(0, ⟨0, 0, 1, 1⟩), (2, ⟨5, 5, 6, 6⟩)], 1, 2⟩ :
        SearchNav).search_results.length = 2) ∧
    (go_to_next_result
      ⟨[(0, ⟨0, 0, 1, 1⟩), (2, ⟨5, 5, 6, 6⟩)], 1, 2⟩).current_search_index = 0 := by
  refine ⟨rfl, ?_⟩
  have h := ((C8_cyclic_result_navigation
      ⟨[(0, ⟨0, 0, 1, 1⟩), (2, ⟨5, 5, 6, 6⟩)], 1, 2⟩).2 1
      (by omega) (by simp) rfl).1
  rw [h]
  rfl

/-- `_recalculate_base_scale_and_render` never emits a page change (shared
helper). -/
theorem recalc_no_pageChanged (s : ViewerState) (g : PageGeom) :
    ViewEvent.pageChanged ∉ (recalculate_base_scale_and_render s g).2 := by
  rw [recalculate_base_scale_and_render]
  split
  · simp
  split
  · simp
  dsimp only
  split
  · simp
  · simp

/-- C10: `display_page` on an out-of-range page number (or with no document)
is a no-op. On the currently displayed, in-range page number it emits no
page change; instead it performs `fit_to_page`, which resets the zoom factor
to exactly 1.0 and — with a live viewport and a non-degenerate page —
recomputes the base scale as `min(viewW/pageW', viewH/pageH')` over the
rotated page dimensions and schedules a debounced re-render. `page_changed`
is emitted only when the displayed page index actually changes, and then the
new index is the requested one. -/
theorem C10_display_page_same_and_out_of_range (s : ViewerState) (g : PageGeom)
    (page_num : Int) (hdoc : s.docOpen = true) (hview : g.hasViewport = true)
    (hw : 0 < g.pageW) (hh : 0 < g.pageH) :
    (¬(0 ≤ page_num ∧ page_num < s.pageCount) →
      display_page s g page_num = (s, [])) ∧
    (page_num = (s.current_page_index : Int) →
      (0 ≤ page_num ∧ page_num < s.pageCount) →
      (display_page s g page_num).1.current_zoom_factor = 1 ∧
      (display_page s g page_num).1.base_scale =
        min (g.viewW / (rotatedDims g s.rotation).1)
          (g.viewH / (rotatedDims g s.rotation).2) ∧
      ViewEvent.pageChanged ∉ (display_page s g page_num).2 ∧
      ViewEvent.renderDebounced ∈ (display_page s g page_num).2) ∧
    (ViewEvent.pageChanged ∈ (display_page s g page_num).2 →
      (s.current_page_index : Int) ≠ page_num ∧
      ((display_page s g page_num).1.current_page_index : Int) = page_num) := by
  have hdim : 0 < (rotatedDims g s.rotation).1 ∧ 0 < (rotatedDims g s.rotation).2 := by
    rw [rotatedDims]
    split
    · exact ⟨hw, hh⟩
    · exact ⟨hh, hw⟩
  have hrec : ∀ s1 : ViewerState, s1.docOpen = true → s1.rotation = s.rotation →
      recalculate_base_scale_and_render s1 g =
        ({ s1 with base_scale := min (g.viewW / (rotatedDims g s.rotation).1) (g.viewH / (rotatedDims g s.rotation).2) },
          [ViewEvent.renderDebounced]) := by
    intro s1 h1 h2
    rw [recalculate_base_scale_and_render]
    rw [if_neg (by rw [h1, hview]; simp)]
    rw [if_neg (by push_neg; exact ⟨hw, hh⟩)]
    rw [h2]
    rw [if_neg (by push_neg; exact ⟨ne_of_gt hdim.1, ne_of_gt hdim.2⟩)]
  refine ⟨?_, ?_, ?_⟩
  · intro hnb
    rw [display_page, if_pos (Or.inr hnb)]
  · intro heq hb
    have hcond : ¬(s.docOpen = false ∨ ¬(0 ≤ page_num ∧ page_num < s.pageCount)) := by
      rintro (hf | hnb)
      · rw [hdoc] at hf
        exact Bool.noConfusion hf
      · exact hnb hb
    rw [display_page, if_neg hcond, if_neg (fun hne => hne heq.symm)]
    rw [fit_to_page]
    rw [hrec { s with current_zoom_factor := 1 } hdoc rfl]
    refine ⟨rfl, rfl, ?_, ?_⟩
    · simp
    · simp
  · intro hmem
    by_cases hc1 : s.docOpen = false ∨ ¬(0 ≤ page_num ∧ page_num < s.pageCount)
    · rw [display_page, if_pos hc1] at hmem ⊢
      simp at hmem
    · by_cases hc2 : (s.current_page_index : Int) ≠ page_num
      · have hb : 0 ≤ page_num ∧ page_num < s.pageCount := by
          rcases not_or.mp hc1 with ⟨_, hnb⟩
          exact not_not.mp hnb
        rw [display_page, if_neg hc1, if_pos hc2]
        exact ⟨hc2, by simpa using Int.toNat_of_nonneg hb.1⟩
      · rw [display_page, if_neg hc1, if_neg hc2, fit_to_page] at hmem
        simp only [List.mem_cons] at hmem
        rcases hmem with h | h
        · exact absurd h (by simp)
        · exact absurd h (recalc_no_pageChanged _ _)

/-- C10 witness: a 3-page document showing page 1 at zoom 2, rotation 0,
with a 100×200 viewport and a 50×100 page: `display_page 1` (the current
page) resets the zoom to 1, recomputes the base scale to `min(2, 2) = 2`,
emits no page change, and schedules a debounced re-render; and out-of-range
`display_page` is a no-op. -/
theorem C10_witness :
    ((0 : ℚ) < 50 ∧ (0 : ℚ) < 100) ∧
    (¬(0 ≤ (5 : Int) ∧ (5 : Int) < (3 : Nat)) →
      display_page ⟨true, 3, 1, 2, 1, 0⟩ ⟨true, 100, 200, 50, 100⟩ 5 =
        (⟨true, 3, 1, 2, 1, 0⟩, [])) ∧
    (display_page ⟨true, 3, 1, 2, 1, 0⟩
        ⟨true, 100, 200, 50, 100⟩ 1).1.current_zoom_factor = 1 ∧
    (display_page ⟨true, 3, 1, 2, 1, 0⟩
        ⟨true, 100, 200, 50, 100⟩ 1).1.base_scale =
      min ((100 : ℚ) / (rotatedDims ⟨true, 100, 200, 50, 100⟩ 0).1)
        ((200 : ℚ) / (rotatedDims ⟨true, 100, 200, 50, 100⟩ 0).2) ∧
    ViewEvent.pageChanged ∉ (display_page ⟨true, 3, 1, 2, 1, 0⟩
        ⟨true, 100, 200, 50, 100⟩ 1).2 ∧
    ViewEvent.renderDebounced ∈ (display_page ⟨true, 3, 1, 2, 1, 0⟩
        ⟨true, 100, 200, 50, 100⟩ 1).2 := by
  have h5 := (C10_display_page_same_and_out_of_range ⟨true, 3, 1, 2, 1, 0⟩
    ⟨true, 100, 200, 50, 100⟩ 5 rfl rfl (by norm_num) (by norm_num)).1
  have h1 := (C10_display_page_same_and_out_of_range ⟨true, 3, 1, 2, 1, 0⟩
    ⟨true, 100, 200, 50, 100⟩ 1 rfl rfl (by norm_num) (by norm_num)).2.1
    (by norm_num) (by constructor <;> norm_num)
  exact ⟨⟨by norm_num, by norm_num⟩, h5, h1.1, h1.2.1, h1.2.2.1, h1.2.2.2⟩

end QuantumPDF
